import Mathlib

/-!
Shallow embedding of the analytical core of `src/app.py`
(`SearchConsoleAnalyzer.analyze_zero_click_potential` and
`SearchConsoleAnalyzer.categorize_query_type`).

Modelling choices:
* A pandas DataFrame row becomes a `QueryMetric` record; a DataFrame becomes a
  `List QueryMetric` in row order (`None` inputs are out of scope: the model's
  caller always passes a list, the `df is None` branch coincides with `[]`).
* Python floats (`ctr`, `position`, scores) are modelled as exact rationals
  `ℚ`; `impressions` and `clicks` are the non-negative integers `ℕ`.
* `df['impressions'].max()` / `df['ctr'].min()` are folds over the whole
  unfiltered list (pandas reduces the full column).
* `df.sort_values(col, ascending=False)` is embedded following pandas
  `nargsort`: for `ascending=False` pandas reverses the values and the index,
  argsorts ascending with numpy's default `quicksort` kind, and reverses the
  resulting indexer again. For columns of fewer than 16 rows numpy's
  `quicksort` runs its insertion-sort base case, which is a stable ascending
  sort, so on such inputs the call is exactly "reverse, stable ascending
  sort, reverse"; that is what `sort_values_desc` implements. On larger
  inputs numpy's introsort makes tie order unspecified (pandas documents
  only `mergesort`/`stable` as stable kinds), so no theorem below relies on
  tie order.
-/

namespace GscApp

/-- One row of the fetched DataFrame (`row_data` built in
`get_search_analytics_data`): `query`, `clicks`, `impressions`, `ctr`,
`position`. -/
structure QueryMetric where
  query : String
  clicks : ℕ
  impressions : ℕ
  ctr : ℚ
  position : ℚ
deriving DecidableEq, Repr

/-- `question_words` list from `categorize_query_type`. -/
def question_words : List String :=
  ["what", "when", "where", "who", "why", "how", "is", "are", "can", "will", "does"]

/-- `definition_words` list from `categorize_query_type`. -/
def definition_words : List String :=
  ["define", "definition", "meaning", "what is", "what are"]

/-- `calculation_words` list from `categorize_query_type`. -/
def calculation_words : List String :=
  ["calculate", "convert", "calculator", "formula", "equation"]

/-- `instant_answer_words` list from `categorize_query_type`. -/
def instant_answer_words : List String :=
  ["weather", "time", "temperature", "forecast", "hours", "phone number", "address"]

/-- Python's `s.lower()` (modelled per character; the queries the rules
inspect are ASCII, where `Char.toLower` agrees with Python). -/
def strToLower (s : String) : String :=
  ⟨s.data.map Char.toLower⟩

/-- Python's substring test `w in s`: `w` occurs as a contiguous character
sequence anywhere in `s`. -/
def strContains (s w : String) : Bool :=
  s.data.tails.any (fun t => w.data.isPrefixOf t)

/-- Python's `s.startswith(w)`. -/
def strStartsWith (s w : String) : Bool :=
  w.data.isPrefixOf s.data

/-- Python's `any(word in s for word in ws)`. -/
def containsAny (s : String) (ws : List String) : Bool :=
  ws.any (fun w => strContains s w)

/-- Python's `any(s.startswith(word) for word in ws)`. -/
def startsWithAny (s : String) (ws : List String) : Bool :=
  ws.any (fun w => strStartsWith s w)

/-- Python's `s.split()`: split at every whitespace character and drop the
empty tokens (equivalently, the maximal whitespace-free runs). -/
def pySplit (s : String) : List (List Char) :=
  (s.data.splitOnP Char.isWhitespace).filter (fun t => !t.isEmpty)

/-- `SearchConsoleAnalyzer.categorize_query_type` (src/app.py lines 125-152):
lowercase the query, then test the keyword rules in order, first match
winning. -/
def categorize_query_type (query : String) : String :=
  let query_lower := strToLower query
  if containsAny query_lower definition_words then "Definition/Information"
  else if containsAny query_lower calculation_words then "Calculation/Conversion"
  else if containsAny query_lower instant_answer_words then "Instant Answer"
  else if startsWithAny query_lower question_words then "Question"
  else if (pySplit query_lower).length ≤ 2 then "Short Query"
  else "Other"

/-- The boolean row mask of src/app.py lines 105-109:
`impressions >= min_impressions AND ctr <= max_ctr AND position <= 10`. -/
def passesFilter (min_impressions : ℕ) (max_ctr : ℚ) (r : QueryMetric) : Bool :=
  decide (min_impressions ≤ r.impressions) && decide (r.ctr ≤ max_ctr)
    && decide (r.position ≤ 10)

/-- `df['impressions'].max()` over the full unfiltered frame (a fold of `max`
over the column; the 0 default is never reached on the nonempty frames the
caller scores). -/
def max_impressions (df : List QueryMetric) : ℕ :=
  match df.map (fun r => r.impressions) with
  | [] => 0
  | c :: cs => cs.foldl max c

/-- `df['ctr'].min()` over the full unfiltered frame. -/
def min_ctr (df : List QueryMetric) : ℚ :=
  match df.map (fun r => r.ctr) with
  | [] => 0
  | c :: cs => cs.foldl min c

/-- The score expression of src/app.py lines 112-116, for one candidate row
`r`, with both normalization aggregates drawn from the full unfiltered
frame `df`. -/
def zero_click_score (df : List QueryMetric) (r : QueryMetric) : ℚ :=
  ((r.impressions : ℚ) / (max_impressions df : ℚ)) * 0.4
    + ((1 - r.ctr) / (1 - min_ctr df)) * 0.4
    + ((11 - r.position) / 10) * 0.2

/-- A row of the returned frame: the candidate's columns plus the two columns
assigned in lines 112-121 (`zero_click_score`, `query_type`). -/
structure ScoredRow where
  query : String
  clicks : ℕ
  impressions : ℕ
  ctr : ℚ
  position : ℚ
  zero_click_score : ℚ
  query_type : String
deriving DecidableEq, Repr

/-- Project a result row back to its underlying metric columns. -/
def ScoredRow.toMetric (s : ScoredRow) : QueryMetric :=
  ⟨s.query, s.clicks, s.impressions, s.ctr, s.position⟩

/-- Build the result row for a filtered candidate `r` (the column assignments
of lines 112-121 applied to the copied candidate frame). -/
def scoreRow (df : List QueryMetric) (r : QueryMetric) : ScoredRow :=
  { query := r.query
    clicks := r.clicks
    impressions := r.impressions
    ctr := r.ctr
    position := r.position
    zero_click_score := zero_click_score df r
    query_type := categorize_query_type r.query }

/-- The ascending comparison pandas argsorts by on line 123
(`zero_click_score` column values). -/
def scoreLE (a b : ScoredRow) : Prop :=
  a.zero_click_score ≤ b.zero_click_score

instance : DecidableRel scoreLE := fun a b =>
  inferInstanceAs (Decidable (a.zero_click_score ≤ b.zero_click_score))

instance : IsTotal ScoredRow scoreLE := ⟨fun _ _ => le_total _ _⟩

instance : IsTrans ScoredRow scoreLE := ⟨fun _ _ _ hab hbc => le_trans hab hbc⟩

/-- `sort_values('zero_click_score', ascending=False)` (line 123): pandas
`nargsort` reverses the rows, argsorts the column ascending, and reverses the
result; on frames of fewer than 16 rows the ascending argsort is numpy's
stable insertion sort, so this is exact there (on larger frames the default
`quicksort` kind leaves tie order unspecified). -/
def sort_values_desc (l : List ScoredRow) : List ScoredRow :=
  (List.insertionSort scoreLE l.reverse).reverse

/-- `SearchConsoleAnalyzer.analyze_zero_click_potential`
(src/app.py lines 99-123). -/
def analyze_zero_click_potential (df : List QueryMetric)
    (min_impressions : ℕ) (max_ctr : ℚ) : List ScoredRow :=
  if df.isEmpty then []
  else
    let zero_click_candidates := df.filter (passesFilter min_impressions max_ctr)
    sort_values_desc (zero_click_candidates.map (scoreRow df))

/-! ### Helper lemmas -/

theorem analyze_eq (df : List QueryMetric) (mi : ℕ) (mc : ℚ) :
    analyze_zero_click_potential df mi mc =
      sort_values_desc ((df.filter (passesFilter mi mc)).map (scoreRow df)) := by
  cases df with
  | nil => rfl
  | cons r rs => rfl

theorem mem_sort_values_desc {row : ScoredRow} {l : List ScoredRow} :
    row ∈ sort_values_desc l ↔ row ∈ l := by
  unfold sort_values_desc
  rw [List.mem_reverse, (List.perm_insertionSort scoreLE l.reverse).mem_iff,
    List.mem_reverse]

theorem mem_analyze {row : ScoredRow} {df : List QueryMetric} {mi : ℕ} {mc : ℚ} :
    row ∈ analyze_zero_click_potential df mi mc ↔
      ∃ r, r ∈ df.filter (passesFilter mi mc) ∧ row = scoreRow df r := by
  rw [analyze_eq, mem_sort_values_desc, List.mem_map]
  constructor
  · rintro ⟨r, hr, rfl⟩; exact ⟨r, hr, rfl⟩
  · rintro ⟨r, hr, rfl⟩; exact ⟨r, hr, rfl⟩

theorem toMetric_scoreRow (df : List QueryMetric) (r : QueryMetric) :
    (scoreRow df r).toMetric = r := rfl

theorem passesFilter_iff {mi : ℕ} {mc : ℚ} {r : QueryMetric} :
    passesFilter mi mc r = true ↔
      mi ≤ r.impressions ∧ r.ctr ≤ mc ∧ r.position ≤ 10 := by
  simp [passesFilter, and_assoc]

/-! ### C1 -/

/-- C1: for every metric set and thresholds, the candidate rows returned by
`analyze_zero_click_potential` (projected to their metric columns) are exactly
the input rows with `impressions ≥ min_impressions`, `ctr ≤ max_ctr` and
`position ≤ 10`: every output record satisfies all three conditions and every
input record satisfying them appears in the output. -/
theorem c1_filter_exact (df : List QueryMetric) (mi : ℕ) (mc : ℚ)
    (r : QueryMetric) :
    r ∈ (analyze_zero_click_potential df mi mc).map ScoredRow.toMetric ↔
      r ∈ df ∧ mi ≤ r.impressions ∧ r.ctr ≤ mc ∧ r.position ≤ 10 := by
  rw [List.mem_map]
  constructor
  · rintro ⟨row, hrow, rfl⟩
    obtain ⟨x, hx, rfl⟩ := mem_analyze.1 hrow
    rw [List.mem_filter] at hx
    rw [toMetric_scoreRow]
    exact ⟨hx.1, passesFilter_iff.1 hx.2⟩
  · rintro ⟨hmem, h1, h2, h3⟩
    refine ⟨scoreRow df r, mem_analyze.2 ⟨r, ?_, rfl⟩, toMetric_scoreRow df r⟩
    exact List.mem_filter.2 ⟨hmem, passesFilter_iff.2 ⟨h1, h2, h3⟩⟩

/-! ### C8 -/

/-- C8: on an empty metric set, and on any metric set all of whose rows fail
the filter mask, `analyze_zero_click_potential` returns the empty sequence
(the function is total, so no error is raised). -/
theorem c8_empty_result :
    (∀ (mi : ℕ) (mc : ℚ), analyze_zero_click_potential [] mi mc = [])
    ∧ ∀ (df : List QueryMetric) (mi : ℕ) (mc : ℚ),
        (∀ r ∈ df, passesFilter mi mc r = false) →
        analyze_zero_click_potential df mi mc = [] := by
  constructor
  · intro mi mc; rfl
  · intro df mi mc h
    rw [analyze_eq]
    have hf : df.filter (passesFilter mi mc) = [] := by
      rw [List.filter_eq_nil_iff]
      intro a ha
      simp [h a ha]
    rw [hf]
    rfl

/-- Witness for C8: a one-row set whose row has too few impressions is
all-excluded and yields the empty result. -/
theorem c8_empty_result_witness :
    (∀ r ∈ [(⟨"quartz", 0, 10, 0, 5⟩ : QueryMetric)],
        passesFilter 100 1 r = false)
    ∧ analyze_zero_click_potential [⟨"quartz", 0, 10, 0, 5⟩] 100 1 = [] := by
  refine ⟨by decide, c8_empty_result.2 _ _ _ (by decide)⟩

/-! ### C2 -/

/-- C2: every row of the analysis result carries the weighted score
`0.4 * impressions / max_impressions + 0.4 * (1 - ctr) / (1 - min_ctr)
+ 0.2 * (11 - position) / 10`, where `max_impressions` and `min_ctr` are
taken over the entire unfiltered metric set (the hypotheses exclude the
degenerate aggregates). -/
theorem c2_score_formula (df : List QueryMetric) (mi : ℕ) (mc : ℚ)
    (row : ScoredRow) (hmem : row ∈ analyze_zero_click_potential df mi mc)
    (hmax : 0 < max_impressions df) (hctr : min_ctr df < 1) :
    row.zero_click_score =
      0.4 * ((row.impressions : ℚ) / (max_impressions df : ℚ))
        + 0.4 * ((1 - row.ctr) / (1 - min_ctr df))
        + 0.2 * ((11 - row.position) / 10) := by
  obtain ⟨r, _, rfl⟩ := mem_analyze.1 hmem
  simp only [scoreRow]
  unfold zero_click_score
  ring

/-- Witness for C2: a concrete one-row set whose row passes the filter; its
output score matches the weighted formula over the full set. -/
theorem c2_score_formula_witness :
    scoreRow [⟨"alpha", 0, 100, 0, 5⟩] ⟨"alpha", 0, 100, 0, 5⟩ ∈
      analyze_zero_click_potential [⟨"alpha", 0, 100, 0, 5⟩] 100 1
    ∧ 0 < max_impressions [⟨"alpha", 0, 100, 0, 5⟩]
    ∧ min_ctr [⟨"alpha", 0, 100, 0, 5⟩] < 1
    ∧ (scoreRow [⟨"alpha", 0, 100, 0, 5⟩]
          ⟨"alpha", 0, 100, 0, 5⟩).zero_click_score =
        0.4 * ((100 : ℚ) / (100 : ℚ)) + 0.4 * ((1 - 0) / (1 - 0))
          + 0.2 * ((11 - 5) / 10) := by
  have h1 : scoreRow [⟨"alpha", 0, 100, 0, 5⟩] ⟨"alpha", 0, 100, 0, 5⟩ ∈
      analyze_zero_click_potential [⟨"alpha", 0, 100, 0, 5⟩] 100 1 :=
    mem_analyze.2 ⟨⟨"alpha", 0, 100, 0, 5⟩,
      List.mem_filter.2 ⟨by simp, by decide⟩, rfl⟩
  have h2 : 0 < max_impressions [(⟨"alpha", 0, 100, 0, 5⟩ : QueryMetric)] := by
    decide
  have h3 : min_ctr [(⟨"alpha", 0, 100, 0, 5⟩ : QueryMetric)] < 1 := by
    decide
  refine ⟨h1, h2, h3, ?_⟩
  have hout := c2_score_formula _ 100 1 _ h1 h2 h3
  rw [hout]
  norm_num [max_impressions, min_ctr, scoreRow]

/-! ### C7 -/

/-- C7: score invariance under filter thresholds — rows of two analysis runs
over the same underlying metric set that project to the same metric record
carry the identical `zero_click_score`, whatever the two threshold pairs. -/
theorem c7_threshold_invariance (df : List QueryMetric)
    (mi₁ mi₂ : ℕ) (mc₁ mc₂ : ℚ) (row₁ row₂ : ScoredRow)
    (h₁ : row₁ ∈ analyze_zero_click_potential df mi₁ mc₁)
    (h₂ : row₂ ∈ analyze_zero_click_potential df mi₂ mc₂)
    (hb : row₁.toMetric = row₂.toMetric) :
    row₁.zero_click_score = row₂.zero_click_score := by
  obtain ⟨r₁, _, rfl⟩ := mem_analyze.1 h₁
  obtain ⟨r₂, _, rfl⟩ := mem_analyze.1 h₂
  rw [toMetric_scoreRow, toMetric_scoreRow] at hb
  subst hb
  rfl

/-- Witness for C7: the same row passes two different threshold pairs and
gets the same score in both runs. -/
theorem c7_threshold_invariance_witness :
    scoreRow [⟨"alpha", 0, 100, 0, 5⟩] ⟨"alpha", 0, 100, 0, 5⟩ ∈
      analyze_zero_click_potential [⟨"alpha", 0, 100, 0, 5⟩] 100 1
    ∧ scoreRow [⟨"alpha", 0, 100, 0, 5⟩] ⟨"alpha", 0, 100, 0, 5⟩ ∈
      analyze_zero_click_potential [⟨"alpha", 0, 100, 0, 5⟩] 50 2
    ∧ (scoreRow [⟨"alpha", 0, 100, 0, 5⟩] ⟨"alpha", 0, 100, 0, 5⟩).zero_click_score
      = (scoreRow [⟨"alpha", 0, 100, 0, 5⟩] ⟨"alpha", 0, 100, 0, 5⟩).zero_click_score := by
  have h1 : scoreRow [⟨"alpha", 0, 100, 0, 5⟩] ⟨"alpha", 0, 100, 0, 5⟩ ∈
      analyze_zero_click_potential [⟨"alpha", 0, 100, 0, 5⟩] 100 1 :=
    mem_analyze.2 ⟨⟨"alpha", 0, 100, 0, 5⟩,
      List.mem_filter.2 ⟨by simp, by decide⟩, rfl⟩
  have h2 : scoreRow [⟨"alpha", 0, 100, 0, 5⟩] ⟨"alpha", 0, 100, 0, 5⟩ ∈
      analyze_zero_click_potential [⟨"alpha", 0, 100, 0, 5⟩] 50 2 :=
    mem_analyze.2 ⟨⟨"alpha", 0, 100, 0, 5⟩,
      List.mem_filter.2 ⟨by simp, by decide⟩, rfl⟩
  exact ⟨h1, h2, c7_threshold_invariance _ 100 50 1 2 _ _ h1 h2 rfl⟩

/-! ### Order of the analysis result

The score order of the returned sequence is settled here as development
lemmas: the result is always score-wise non-increasing and a permutation of
the scored candidates. What these lemmas deliberately do not pin down is the
relative order of candidates with equal scores: the source delegates it to
numpy's default `quicksort` kind, whose tie behavior is unspecified beyond
the insertion-sort base case for small frames. -/

theorem analyze_pairwise_desc (df : List QueryMetric) (mi : ℕ) (mc : ℚ) :
    List.Pairwise
        (fun a b : ScoredRow => b.zero_click_score ≤ a.zero_click_score)
        (analyze_zero_click_potential df mi mc) := by
  rw [analyze_eq]
  unfold sort_values_desc
  rw [List.pairwise_reverse]
  exact List.sorted_insertionSort scoreLE _

theorem analyze_perm_scored (df : List QueryMetric) (mi : ℕ) (mc : ℚ) :
    (analyze_zero_click_potential df mi mc).Perm
      ((df.filter (passesFilter mi mc)).map (scoreRow df)) := by
  rw [analyze_eq]
  unfold sort_values_desc
  exact ((List.reverse_perm _).trans (List.perm_insertionSort _ _)).trans
    (List.reverse_perm _)

/-! ### C4 -/

/-- C4: the code does not guard the degenerate normalization. On the one-row
set whose only `ctr` is `1`, the full-set minimum `ctr` is `1`, so the
`ctr_inverse_ratio` denominator `1 - min_ctr` is exactly `0`; yet the row
passes the filter (thresholds `min_impressions = 100`, `max_ctr = 1`) and the
pipeline unconditionally builds its scored row from that zero denominator —
no branch of `analyze_zero_click_potential` tests for it. (In numpy the
division `0/0` yields NaN rather than a defined fallback.) -/
theorem c4_degenerate_unguarded :
    min_ctr [(⟨"quiz", 100, 100, 1, 5⟩ : QueryMetric)] = 1
    ∧ 1 - min_ctr [(⟨"quiz", 100, 100, 1, 5⟩ : QueryMetric)] = 0
    ∧ [(⟨"quiz", 100, 100, 1, 5⟩ : QueryMetric)].filter (passesFilter 100 1)
        = [⟨"quiz", 100, 100, 1, 5⟩]
    ∧ analyze_zero_click_potential [⟨"quiz", 100, 100, 1, 5⟩] 100 1
        = [scoreRow [⟨"quiz", 100, 100, 1, 5⟩] ⟨"quiz", 100, 100, 1, 5⟩] := by
  have h : min_ctr [(⟨"quiz", 100, 100, 1, 5⟩ : QueryMetric)] = 1 := rfl
  refine ⟨h, by rw [h]; norm_num, by decide, ?_⟩
  rw [analyze_eq]
  rfl

/-! ### C5 -/

/-- C5: `categorize_query_type` follows the fixed priority order on the
lowercased text — definition keywords, then calculation keywords, then
instant-answer keywords, then a leading question word, then the two-token
bound, else "Other" — with the first matching rule winning; in particular
"what is the capital of France" is labelled Definition/Information even
though it also starts with a question word. -/
theorem c5_priority_order (q : String) :
    (containsAny (strToLower q) definition_words = true →
      categorize_query_type q = "Definition/Information")
    ∧ (containsAny (strToLower q) definition_words = false →
       containsAny (strToLower q) calculation_words = true →
      categorize_query_type q = "Calculation/Conversion")
    ∧ (containsAny (strToLower q) definition_words = false →
       containsAny (strToLower q) calculation_words = false →
       containsAny (strToLower q) instant_answer_words = true →
      categorize_query_type q = "Instant Answer")
    ∧ (containsAny (strToLower q) definition_words = false →
       containsAny (strToLower q) calculation_words = false →
       containsAny (strToLower q) instant_answer_words = false →
       startsWithAny (strToLower q) question_words = true →
      categorize_query_type q = "Question")
    ∧ (containsAny (strToLower q) definition_words = false →
       containsAny (strToLower q) calculation_words = false →
       containsAny (strToLower q) instant_answer_words = false →
       startsWithAny (strToLower q) question_words = false →
       (pySplit (strToLower q)).length ≤ 2 →
      categorize_query_type q = "Short Query")
    ∧ (containsAny (strToLower q) definition_words = false →
       containsAny (strToLower q) calculation_words = false →
       containsAny (strToLower q) instant_answer_words = false →
       startsWithAny (strToLower q) question_words = false →
       ¬(pySplit (strToLower q)).length ≤ 2 →
      categorize_query_type q = "Other")
    ∧ categorize_query_type "what is the capital of France"
        = "Definition/Information"
    ∧ startsWithAny (strToLower "what is the capital of France") question_words
        = true := by
  refine ⟨fun h1 => by simp [categorize_query_type, h1],
    fun h1 h2 => by simp [categorize_query_type, h1, h2],
    fun h1 h2 h3 => by simp [categorize_query_type, h1, h2, h3],
    fun h1 h2 h3 h4 => by simp [categorize_query_type, h1, h2, h3, h4],
    fun h1 h2 h3 h4 h5 => by simp [categorize_query_type, h1, h2, h3, h4, h5],
    fun h1 h2 h3 h4 h5 => by simp [categorize_query_type, h1, h2, h3, h4, h5],
    by decide, by decide⟩

/-- Witness for C5: the France query matches the definition-keyword rule
and receives that label. -/
theorem c5_priority_order_witness :
    containsAny (strToLower "what is the capital of France") definition_words
        = true
    ∧ categorize_query_type "what is the capital of France"
        = "Definition/Information" :=
  ⟨by decide, (c5_priority_order "what is the capital of France").1 (by decide)⟩

/-! ### C6 helpers -/

theorem foldl_min_min (cs : List ℚ) :
    ∀ a b : ℚ, cs.foldl min (min a b) = min a (cs.foldl min b) := by
  induction cs with
  | nil => intro a b; rfl
  | cons x xs ih =>
    intro a b
    show xs.foldl min (min (min a b) x) = min a (xs.foldl min (min b x))
    rw [min_assoc, ih]

theorem foldl_max_max (cs : List ℕ) :
    ∀ a b : ℕ, cs.foldl max (max a b) = max a (cs.foldl max b) := by
  induction cs with
  | nil => intro a b; rfl
  | cons x xs ih =>
    intro a b
    show xs.foldl max (max (max a b) x) = max a (xs.foldl max (max b x))
    rw [max_assoc, ih]

theorem min_ctr_cons (r : QueryMetric) (others : List QueryMetric) :
    min_ctr (r :: others) = (others.map (fun x => x.ctr)).foldl min r.ctr := rfl

theorem max_impressions_cons (r : QueryMetric) (others : List QueryMetric) :
    max_impressions (r :: others)
      = (others.map (fun x => x.impressions)).foldl max r.impressions := rfl

theorem ctr_ratio_mono (c₁ c₂ M : ℚ) (h : c₁ ≤ c₂)
    (h₁ : min c₁ M < 1) (h₂ : min c₂ M < 1) :
    (1 - c₂) / (1 - min c₂ M) ≤ (1 - c₁) / (1 - min c₁ M) := by
  have d₁ : (0:ℚ) < 1 - min c₁ M := by linarith
  have d₂ : (0:ℚ) < 1 - min c₂ M := by linarith
  rw [div_le_div_iff₀ d₂ d₁]
  rcases le_total c₁ M with hm1 | hm1
  · rcases le_total c₂ M with hm2 | hm2
    · rw [min_eq_left hm1, min_eq_left hm2]
      exact le_of_eq (mul_comm _ _)
    · have hc1 : c₁ < 1 := by rwa [min_eq_left hm1] at h₁
      rw [min_eq_left hm1, min_eq_right hm2]
      nlinarith [hm2, hc1]
  · have hm2 : M ≤ c₂ := le_trans hm1 h
    have hM : M < 1 := by rwa [min_eq_right hm1] at h₁
    rw [min_eq_right hm1, min_eq_right hm2]
    nlinarith [h, hM]

theorem foldl_min_ctr_mono (L : List ℚ) (c₁ c₂ : ℚ) (h : c₁ ≤ c₂)
    (h₁ : L.foldl min c₁ < 1) (h₂ : L.foldl min c₂ < 1) :
    (1 - c₂) / (1 - L.foldl min c₂) ≤ (1 - c₁) / (1 - L.foldl min c₁) := by
  cases L with
  | nil =>
    simp only [List.foldl_nil] at h₁ h₂ ⊢
    rw [div_self (by linarith : (1:ℚ) - c₂ ≠ 0),
      div_self (by linarith : (1:ℚ) - c₁ ≠ 0)]
  | cons x xs =>
    have e₁ : (x :: xs).foldl min c₁ = min c₁ (xs.foldl min x) := by
      show xs.foldl min (min c₁ x) = _
      exact foldl_min_min xs c₁ x
    have e₂ : (x :: xs).foldl min c₂ = min c₂ (xs.foldl min x) := by
      show xs.foldl min (min c₂ x) = _
      exact foldl_min_min xs c₂ x
    rw [e₁] at h₁ ⊢
    rw [e₂] at h₂ ⊢
    exact ctr_ratio_mono c₁ c₂ (xs.foldl min x) h h₁ h₂

theorem imp_mul_le (i₁ i₂ M : ℕ) (h : i₁ ≤ i₂) :
    i₁ * max i₂ M ≤ i₂ * max i₁ M := by
  rcases le_total i₂ M with hm | hm
  · rw [max_eq_right hm, max_eq_right (le_trans h hm)]
    exact Nat.mul_le_mul h (le_refl M)
  · rw [max_eq_left hm]
    calc i₁ * i₂ ≤ max i₁ M * i₂ := Nat.mul_le_mul (le_max_left i₁ M) (le_refl i₂)
      _ = i₂ * max i₁ M := Nat.mul_comm _ _

theorem foldl_max_ratio_mono (L : List ℕ) (i₁ i₂ : ℕ) (h : i₁ ≤ i₂)
    (hpos : 0 < L.foldl max i₁) :
    (i₁ : ℚ) / ((L.foldl max i₁ : ℕ) : ℚ)
      ≤ (i₂ : ℚ) / ((L.foldl max i₂ : ℕ) : ℚ) := by
  cases L with
  | nil =>
    simp only [List.foldl_nil] at hpos ⊢
    have h₂ : 0 < i₂ := lt_of_lt_of_le hpos h
    rw [div_self (by exact_mod_cast Nat.pos_iff_ne_zero.1 hpos : (i₁:ℚ) ≠ 0),
      div_self (by exact_mod_cast Nat.pos_iff_ne_zero.1 h₂ : (i₂:ℚ) ≠ 0)]
  | cons x xs =>
    have e₁ : (x :: xs).foldl max i₁ = max i₁ (xs.foldl max x) := by
      show xs.foldl max (max i₁ x) = _
      exact foldl_max_max xs i₁ x
    have e₂ : (x :: xs).foldl max i₂ = max i₂ (xs.foldl max x) := by
      show xs.foldl max (max i₂ x) = _
      exact foldl_max_max xs i₂ x
    rw [e₁] at hpos ⊢
    rw [e₂]
    set M := xs.foldl max x with hM
    have hpos₂ : 0 < max i₂ M := lt_of_lt_of_le hpos (max_le_max h (le_refl M))
    have hq₁ : (0:ℚ) < ((max i₁ M : ℕ) : ℚ) := by exact_mod_cast hpos
    have hq₂ : (0:ℚ) < ((max i₂ M : ℕ) : ℚ) := by exact_mod_cast hpos₂
    rw [div_le_div_iff₀ hq₁ hq₂]
    exact_mod_cast imp_mul_le i₁ i₂ M h

/-! ### C6 -/

/-- C6: monotonicity of the score for a candidate inside its own full set
(so a field change can also move the full-set aggregates): raising the
candidate's impressions never lowers its score (given a positive impression
maximum), raising its ctr never raises its score (given non-degenerate ctr
denominators in both scenarios), and raising its position value never raises
its score. -/
theorem c6_score_monotonicity :
    (∀ (others : List QueryMetric) (s : String) (c : ℕ) (ct p : ℚ) (i₁ i₂ : ℕ),
      i₁ ≤ i₂ →
      0 < max_impressions (⟨s, c, i₁, ct, p⟩ :: others) →
      zero_click_score (⟨s, c, i₁, ct, p⟩ :: others) ⟨s, c, i₁, ct, p⟩ ≤
        zero_click_score (⟨s, c, i₂, ct, p⟩ :: others) ⟨s, c, i₂, ct, p⟩)
    ∧ (∀ (others : List QueryMetric) (s : String) (c i : ℕ) (p ct₁ ct₂ : ℚ),
      ct₁ ≤ ct₂ →
      min_ctr (⟨s, c, i, ct₁, p⟩ :: others) < 1 →
      min_ctr (⟨s, c, i, ct₂, p⟩ :: others) < 1 →
      zero_click_score (⟨s, c, i, ct₂, p⟩ :: others) ⟨s, c, i, ct₂, p⟩ ≤
        zero_click_score (⟨s, c, i, ct₁, p⟩ :: others) ⟨s, c, i, ct₁, p⟩)
    ∧ (∀ (others : List QueryMetric) (s : String) (c i : ℕ) (ct : ℚ) (p₁ p₂ : ℚ),
      p₁ ≤ p₂ →
      zero_click_score (⟨s, c, i, ct, p₂⟩ :: others) ⟨s, c, i, ct, p₂⟩ ≤
        zero_click_score (⟨s, c, i, ct, p₁⟩ :: others) ⟨s, c, i, ct, p₁⟩) := by
  refine ⟨?_, ?_, ?_⟩
  · intro others s c ct p i₁ i₂ h hpos
    have himp : ((i₁ : ℕ) : ℚ)
        / (((others.map (fun x => x.impressions)).foldl max i₁ : ℕ) : ℚ)
        ≤ ((i₂ : ℕ) : ℚ)
        / (((others.map (fun x => x.impressions)).foldl max i₂ : ℕ) : ℚ) :=
      foldl_max_ratio_mono _ i₁ i₂ h hpos
    simp only [zero_click_score, max_impressions_cons, min_ctr_cons] at himp ⊢
    linarith [himp]
  · intro others s c i p ct₁ ct₂ h h₁ h₂
    rw [min_ctr_cons] at h₁ h₂
    have hctr : (1 - ct₂)
        / (1 - (others.map (fun x => x.ctr)).foldl min ct₂)
        ≤ (1 - ct₁)
        / (1 - (others.map (fun x => x.ctr)).foldl min ct₁) :=
      foldl_min_ctr_mono _ ct₁ ct₂ h h₁ h₂
    simp only [zero_click_score, max_impressions_cons, min_ctr_cons]
    linarith [hctr]
  · intro others s c i ct p₁ p₂ h
    simp only [zero_click_score, max_impressions_cons, min_ctr_cons]
    linarith

/-- Witness for C6: concrete instantiations of all three monotonicity
conjuncts on small one-row sets. -/
theorem c6_score_monotonicity_witness :
    0 < max_impressions [(⟨"quill", 0, 50, 0, 5⟩ : QueryMetric)]
    ∧ min_ctr [(⟨"quill", 0, 100, 0, 5⟩ : QueryMetric)] < 1
    ∧ min_ctr [(⟨"quill", 0, 100, (1/2), 5⟩ : QueryMetric)] < 1
    ∧ zero_click_score [⟨"quill", 0, 50, 0, 5⟩] ⟨"quill", 0, 50, 0, 5⟩ ≤
        zero_click_score [⟨"quill", 0, 100, 0, 5⟩] ⟨"quill", 0, 100, 0, 5⟩
    ∧ zero_click_score [⟨"quill", 0, 100, (1/2), 5⟩] ⟨"quill", 0, 100, (1/2), 5⟩ ≤
        zero_click_score [⟨"quill", 0, 100, 0, 5⟩] ⟨"quill", 0, 100, 0, 5⟩
    ∧ zero_click_score [⟨"quill", 0, 100, 0, 6⟩] ⟨"quill", 0, 100, 0, 6⟩ ≤
        zero_click_score [⟨"quill", 0, 100, 0, 5⟩] ⟨"quill", 0, 100, 0, 5⟩ := by
  have hpos : 0 < max_impressions [(⟨"quill", 0, 50, 0, 5⟩ : QueryMetric)] := by
    decide
  have hm₁ : min_ctr [(⟨"quill", 0, 100, 0, 5⟩ : QueryMetric)] < 1 := by decide
  have hm₂ : min_ctr [(⟨"quill", 0, 100, (1/2), 5⟩ : QueryMetric)] < 1 := by
    show (1 : ℚ) / 2 < 1
    norm_num
  exact ⟨hpos, hm₁, hm₂,
    c6_score_monotonicity.1 [] "quill" 0 0 5 50 100 (by norm_num) hpos,
    c6_score_monotonicity.2.1 [] "quill" 0 100 5 0 (1/2) (by norm_num) hm₁ hm₂,
    c6_score_monotonicity.2.2 [] "quill" 0 100 0 5 6 (by norm_num)⟩

/-! ### C9 -/

/-- State-passing form of `analyze_zero_click_potential`: the input frame is
only read (the boolean mask of lines 105-108 and the two aggregates of lines
113-114); `.copy()` on line 109 creates a fresh frame, and both column
assignments (lines 112, 119) target that copy. The final state of the input
frame is returned alongside the result so that its preservation is a stated
fact rather than a convention of the embedding. -/
def analyze_run (df : List QueryMetric) (mi : ℕ) (mc : ℚ) :
    List QueryMetric × List ScoredRow :=
  if df.isEmpty then (df, [])
  else
    let zero_click_candidates := df.filter (passesFilter mi mc)
    let scored := zero_click_candidates.map (scoreRow df)
    (df, sort_values_desc scored)

/-- C9: the analysis does not mutate its input — after the run the input
frame is exactly the frame that was passed in, the result equals the pure
analysis of that input, and every returned row is a freshly built record
whose metric columns coincide with some input row's columns. -/
theorem c9_no_mutation (df : List QueryMetric) (mi : ℕ) (mc : ℚ) :
    (analyze_run df mi mc).1 = df
    ∧ (analyze_run df mi mc).2 = analyze_zero_click_potential df mi mc
    ∧ ∀ row ∈ (analyze_run df mi mc).2, row.toMetric ∈ df := by
  refine ⟨?_, ?_, ?_⟩
  · unfold analyze_run
    split <;> rfl
  · unfold analyze_run analyze_zero_click_potential
    split <;> rfl
  · intro row hrow
    have hrow' : row ∈ analyze_zero_click_potential df mi mc := by
      have he : (analyze_run df mi mc).2 = analyze_zero_click_potential df mi mc := by
        unfold analyze_run analyze_zero_click_potential
        split <;> rfl
      rwa [he] at hrow
    obtain ⟨r, hr, rfl⟩ := mem_analyze.1 hrow'
    rw [toMetric_scoreRow]
    exact List.mem_of_mem_filter hr

/-- Witness for C9: on a concrete one-row frame the input component is
returned unchanged and the returned row's metric columns are those of the
input row. -/
theorem c9_no_mutation_witness :
    (analyze_run [(⟨"alpha", 0, 100, 0, 5⟩ : QueryMetric)] 100 1).1
        = [⟨"alpha", 0, 100, 0, 5⟩]
    ∧ (scoreRow [(⟨"alpha", 0, 100, 0, 5⟩ : QueryMetric)]
          ⟨"alpha", 0, 100, 0, 5⟩).toMetric ∈
        [(⟨"alpha", 0, 100, 0, 5⟩ : QueryMetric)] := by
  have hmem : scoreRow [(⟨"alpha", 0, 100, 0, 5⟩ : QueryMetric)]
      ⟨"alpha", 0, 100, 0, 5⟩ ∈
      (analyze_run [(⟨"alpha", 0, 100, 0, 5⟩ : QueryMetric)] 100 1).2 := by
    have he := (c9_no_mutation [(⟨"alpha", 0, 100, 0, 5⟩ : QueryMetric)] 100 1).2.1
    rw [he]
    exact mem_analyze.2 ⟨⟨"alpha", 0, 100, 0, 5⟩,
      List.mem_filter.2 ⟨by simp, by decide⟩, rfl⟩
  exact ⟨(c9_no_mutation [(⟨"alpha", 0, 100, 0, 5⟩ : QueryMetric)] 100 1).1,
    (c9_no_mutation [(⟨"alpha", 0, 100, 0, 5⟩ : QueryMetric)] 100 1).2.2 _ hmem⟩

/-! ### C10 -/

/-- C10: the classifier's "contains" and "starts with" tests are raw
character-sequence tests, not word-boundary tests. Any query whose lowercase
form contains an instant-answer keyword anywhere — also inside a longer word —
is labelled "Instant Answer" when no higher-priority rule matches, and any
query whose lowercase form merely begins with the characters of a question
word is labelled "Question" when no earlier rule matches; concretely,
"maritime museum" (containing "time" inside "maritime") is an Instant Answer
and "island hotels" (beginning with "is") is a Question. -/
theorem c10_raw_character_matching :
    (∀ (q w : String), w ∈ instant_answer_words →
      strContains (strToLower q) w = true →
      containsAny (strToLower q) definition_words = false →
      containsAny (strToLower q) calculation_words = false →
      categorize_query_type q = "Instant Answer")
    ∧ (∀ (q w : String), w ∈ question_words →
      strStartsWith (strToLower q) w = true →
      containsAny (strToLower q) definition_words = false →
      containsAny (strToLower q) calculation_words = false →
      containsAny (strToLower q) instant_answer_words = false →
      categorize_query_type q = "Question")
    ∧ categorize_query_type "maritime museum" = "Instant Answer"
    ∧ categorize_query_type "island hotels" = "Question" := by
  refine ⟨?_, ?_, by decide, by decide⟩
  · intro q w hw hc h1 h2
    have h3 : containsAny (strToLower q) instant_answer_words = true :=
      List.any_eq_true.2 ⟨w, hw, hc⟩
    simp [categorize_query_type, h1, h2, h3]
  · intro q w hw hc h1 h2 h3
    have h4 : startsWithAny (strToLower q) question_words = true :=
      List.any_eq_true.2 ⟨w, hw, hc⟩
    simp [categorize_query_type, h1, h2, h3, h4]

/-- Witness for C10: "maritime museum" contains "time" inside "maritime" and
is classified Instant Answer; "island hotels" begins with the characters of
"is" and is classified Question. -/
theorem c10_raw_character_matching_witness :
    strContains (strToLower "maritime museum") "time" = true
    ∧ categorize_query_type "maritime museum" = "Instant Answer"
    ∧ strStartsWith (strToLower "island hotels") "is" = true
    ∧ categorize_query_type "island hotels" = "Question" :=
  ⟨by decide,
    c10_raw_character_matching.1 "maritime museum" "time" (by decide) (by decide)
      (by decide) (by decide),
    by decide,
    c10_raw_character_matching.2.1 "island hotels" "is" (by decide) (by decide)
      (by decide) (by decide) (by decide)⟩

end GscApp
